import Mathlib

/-!
Shallow embedding of the Sales-Calls-Dashboard normalization and aggregation
pipeline (src/app.py).  Strings are modelled as `List Char` (`PyStr`); pandas
timestamps as minutes since an epoch (`Nat`, with `none` playing `NaT`);
rational arithmetic (`ℚ`) stands in for the float arithmetic of the KPI
block, and `none` stands for the float `NaN` a pandas reduction can produce.
-/

abbrev PyStr := List Char

/-- Shorthand to write `PyStr` constants from string literals. -/
def pys (s : String) : PyStr := s.data

/-- Model of Python `str.split(sep)` for a one-character separator:
`"".split(sep) == [""]`, and every occurrence of `sep` starts a new chunk. -/
def pySplit (sep : Char) : PyStr → List PyStr
  | [] => [[]]
  | c :: cs =>
    if c = sep then [] :: pySplit sep cs
    else
      match pySplit sep cs with
      | [] => [[c]]
      | t :: ts => (c :: t) :: ts

/-- ASCII decimal digit test (the digits accepted by CPython `int` for a
base-10 literal, unicode digits aside). -/
def isDigitChar (c : Char) : Bool := 48 ≤ c.toNat && c.toNat ≤ 57

/-- The whitespace characters CPython `int` strips from both ends. -/
def pyWS (c : Char) : Bool :=
  c.toNat = 32 || c.toNat = 9 || c.toNat = 10 || c.toNat = 11 ||
    c.toNat = 12 || c.toNat = 13

/-- After an initial digit, CPython accepts a run of digits in which single
underscores may appear between two digits. -/
def digitRun : PyStr → Bool
  | [] => true
  | [c] => isDigitChar c
  | c :: c2 :: rest =>
    if c = '_' then isDigitChar c2 && digitRun rest
    else isDigitChar c && digitRun (c2 :: rest)

/-- Numeric value of a digit string (most significant digit first). -/
def digitsVal (l : PyStr) : Nat := l.foldl (fun a c => a * 10 + (c.toNat - 48)) 0

/-- The unsigned part of CPython `int(s)`: a nonempty digit run (underscores
between digits allowed), else failure. -/
def pyDigits (l : PyStr) : Option Nat :=
  match l with
  | [] => none
  | c :: rest =>
    if isDigitChar c && digitRun rest then
      some (digitsVal (l.filter (fun d => d ≠ '_')))
    else none

/-- Strip `int`-accepted whitespace from both ends. -/
def pyStrip (l : PyStr) : PyStr :=
  ((l.dropWhile pyWS).reverse.dropWhile pyWS).reverse

/-- Model of CPython `int(s)` on a string: strip whitespace, optional sign,
then a nonempty digit run.  (Unicode digits are not modelled.) -/
def pyInt (l : PyStr) : Option Int :=
  match pyStrip l with
  | [] => none
  | c :: rest =>
    if c = '-' then (pyDigits rest).map (fun n => -(n : Int))
    else if c = '+' then (pyDigits rest).map (fun n => (n : Int))
    else (pyDigits (c :: rest)).map (fun n => (n : Int))

/-- `to_seconds` (src/app.py lines 13-18): split on ":", convert the three
fields with `int`, return `h*3600 + m*60 + s`; any failure (wrong number of
fields, unparseable field) yields `none`, modelling the blanket
`except: return None`. -/
def to_seconds (x : PyStr) : Option Int :=
  match pySplit ':' x with
  | [a, b, c] =>
    match pyInt a, pyInt b, pyInt c with
    | some h, some m, some s => some (h * 3600 + m * 60 + s)
    | _, _, _ => none
  | _ => none

/-- Decimal digit character for a value below ten. -/
def digitChar (n : Nat) : Char := Char.ofNat (48 + n)

/-- Decimal rendering of a natural number, accumulator form; structural
recursion on a fuel argument (any fuel above the value works) so the kernel
can evaluate it. -/
def renderNatAux : Nat → Nat → PyStr → PyStr
  | 0, _, acc => acc
  | fuel + 1, n, acc =>
    if n < 10 then digitChar n :: acc
    else renderNatAux fuel (n / 10) (digitChar (n % 10) :: acc)

/-- Decimal rendering of a natural number. -/
def renderNat (n : Nat) : PyStr := renderNatAux (n + 1) n []

/-- Decimal rendering of an integer (a leading '-' for negatives),
the shape produced by Python `str` on an `int`. -/
def renderInt : Int → PyStr
  | .ofNat n => renderNat n
  | .negSucc m => '-' :: renderNat (m + 1)

/-- A canonical call record: one row of the merged dataframe produced by
`load_excel` (src/app.py lines 20-50).  `start`/`endT` are pandas timestamps
in minutes since an epoch (`none` = `NaT`); `date` is the mixed-type date
column of lines 38-41: `none` = `NaT`, `Sum.inl d` = the calendar day (days
since the epoch), `Sum.inr s` = the sheet-name fallback string. -/
structure Rec where
  direction : Option PyStr
  start : Option Nat
  endT : Option Nat
  duration_str : Option PyStr
  assigned_to : Option PyStr
  date : Option (Nat ⊕ PyStr)
  duration_sec : Option Int
deriving DecidableEq

/-- Model of pandas `.unique()`: the distinct values in first-occurrence
order. -/
def pdUnique {α : Type} [DecidableEq α] : List α → List α
  | [] => []
  | a :: l => a :: (pdUnique l).filter (fun b => b ≠ a)

/-- `df["assigned_to"].dropna().unique().tolist()` (line 64): the distinct
non-null values of the column, in first-occurrence order. -/
def assigned_options (l : List Rec) : List PyStr := pdUnique (l.filterMap Rec.assigned_to)

/-- `df["direction"].dropna().unique().tolist()` (line 67). -/
def direction_options (l : List Rec) : List PyStr := pdUnique (l.filterMap Rec.direction)

/-- The boolean-mask filter of lines 71-74: keep rows whose `assigned_to` is
in `aAllow` and whose `direction` is in `dAllow`.  An allowed entry `none`
models putting a null into the `isin` list (pandas `isin` does match nulls
against nulls), which the sidebar defaults never do. -/
def filtered_df (l : List Rec) (aAllow dAllow : List (Option PyStr)) : List Rec :=
  l.filter (fun r => decide (r.assigned_to ∈ aAllow) && decide (r.direction ∈ dAllow))

/-- The non-null entries of the `duration_sec` column, in order (a pandas
reduction with the default `skipna=True` sees exactly these). -/
def durList (l : List Rec) : List Int := l.filterMap Rec.duration_sec

/-- `total_calls = len(filtered_df)` (line 79). -/
def total_calls (l : List Rec) : Nat := l.length

/-- `filtered_df["duration_sec"].sum()`: pandas `sum` skips nulls and yields 0
on an empty or all-null column. -/
def series_sum (l : List Rec) : ℚ := ((durList l).sum : ℚ)

/-- `total_duration = filtered_df["duration_sec"].sum() / 60` (line 80). -/
def total_duration (l : List Rec) : ℚ := series_sum l / 60

/-- `filtered_df["duration_sec"].mean()`: pandas `mean` skips nulls in both
the numerator and the denominator, and is `NaN` (modelled `none`) when the
column has no non-null entry. -/
def series_mean (l : List Rec) : Option ℚ :=
  if durList l = [] then none
  else some (series_sum l / ((durList l).length : ℚ))

/-- `avg_duration = filtered_df["duration_sec"].mean() / 60 if total_calls > 0
else 0` (line 81); `none` models a float `NaN`. -/
def avg_duration (l : List Rec) : Option ℚ :=
  if 0 < total_calls l then (series_mean l).map (fun q => q / 60) else some 0

/-- Two-digit zero-padded decimal rendering (strftime's %I and %M). -/
def pad2 (n : Nat) : PyStr := if n < 10 then '0' :: renderNat n else renderNat n

/-- `strftime("%I:%M %p")` applied to a time of day given in minutes since
midnight: zero-padded 12-hour clock with an AM/PM suffix. -/
def fmtIMp (m : Nat) : PyStr :=
  let h := m / 60 % 24
  let h12 := if h % 12 = 0 then 12 else h % 12
  pad2 h12 ++ ':' :: pad2 (m % 60) ++ (if h < 12 then pys " AM" else pys " PM")

/-- `df_hour["start"].dt.floor("30min").dt.strftime("%I:%M %p")` (line 102):
floor the timestamp to the half hour and format its time of day; a `NaT`
start yields a null label. -/
def hour_slot (start : Option Nat) : Option PyStr :=
  start.map (fun t => fmtIMp ((t - t % 30) % 1440))

/-- `valid_hours = pd.date_range("09:30", "18:30", freq="30min")
.strftime("%I:%M %p").tolist()` (line 105): the 19 half-hour business slots,
09:30 AM through 06:30 PM, in chronological order. -/
def valid_hours : List PyStr := (List.range 19).map (fun i => fmtIMp (570 + 30 * i))

/-- Model of `df.groupby(col).size().reset_index(...)`: pandas tabulates the
distinct observed keys in ascending order with their multiplicities; groups
that do not occur in the data do not appear. -/
def groupbySize {α : Type} [LinearOrder α] [DecidableEq α] (keys : List α) : List (α × Nat) :=
  (keys.dedup.insertionSort (fun a b => a ≤ b)).map
    (fun k => (k, keys.countP (fun x => decide (x = k))))

/-- The `hour_slot` column of `df_hour` after the business-hours restriction
(lines 102-106): one label per record whose floored start lies in
`valid_hours`; records with `NaT` start fall out of the `isin` mask. -/
def slot_column (l : List Rec) : List PyStr :=
  (l.filterMap (fun r => hour_slot r.start)).filter (fun s => decide (s ∈ valid_hours))

/-- `calls_by_hour = df_hour.groupby("hour_slot").size().reset_index(name="count")`
(line 108).  Line 109 only converts the label column to an ordered
categorical dtype; it neither reorders nor extends the rows. -/
def calls_by_hour (l : List Rec) : List (PyStr × Nat) := groupbySize (slot_column l)

/-- `calls_per_day = filtered_df.groupby("date").size().reset_index(name="count")`
(line 92): pandas `groupby` drops rows with a null key (`dropna=True`
default), so records whose `date` is `NaT` are silently discarded.  Keys are
ordered by the lexicographic order on `Nat ⊕ₗ PyStr` (pandas sorts
homogeneous key sets; a mixed date/string key set would make it raise while
sorting, a case this order resolves arbitrarily). -/
def calls_per_day (l : List Rec) : List ((Nat ⊕ₗ PyStr) × Nat) :=
  groupbySize ((l.filterMap Rec.date).map toLex)

/-- One raw spreadsheet row after the column renaming of lines 30-36.  Cells
the pipeline only ever feeds to `pd.to_datetime` are carried as the raw
strings (`none` = missing); the permissive timestamp parse itself is an
abstract parameter `dt` below. -/
structure RawRow where
  direction : Option PyStr
  startCell : Option PyStr
  endCell : Option PyStr
  durationCell : Option PyStr
  assignedCell : Option PyStr
deriving DecidableEq

/-- One workbook sheet: its name, whether the "Call Start" / "Call End" /
"Total Call Time (H:m:s)" columns exist (so that after the renaming of lines
30-36 a `start` / `end` / `duration_str` column exists in that sheet), and
its rows. -/
structure Sheet where
  name : PyStr
  hasStart : Bool
  hasEnd : Bool
  hasDuration : Bool
  rows : List RawRow
deriving DecidableEq

/-- The start cell of a row, `none` when the sheet has no start column. -/
def effStart (s : Sheet) (row : RawRow) : Option PyStr :=
  if s.hasStart then row.startCell else none

/-- The end cell of a row, `none` when the sheet has no end column. -/
def effEnd (s : Sheet) (row : RawRow) : Option PyStr :=
  if s.hasEnd then row.endCell else none

/-- The duration cell of a row, `none` when the sheet has no duration
column (after `pd.concat` such a row holds `NaN` in that column). -/
def effDuration (s : Sheet) (row : RawRow) : Option PyStr :=
  if s.hasDuration then row.durationCell else none

/-- `df.dropna(how="all")` (line 27): a row is dropped when every modelled
cell is missing. -/
def rowAllNa (s : Sheet) (row : RawRow) : Bool :=
  row.direction.isNone && (effStart s row).isNone && (effEnd s row).isNone &&
    (effDuration s row).isNone && row.assignedCell.isNone

/-- `str(x)` as applied by `.astype(str)` (line 46): a missing value prints
as "nan". -/
def astype_str (x : Option PyStr) : PyStr :=
  match x with
  | some s => s
  | none => pys "nan"

/-- One surviving row's final record.  Lines 38-41: with a start column the
`date` is the calendar day of the parsed start (`NaT` when that row's start
does not parse); without one, every row of the sheet is dated with the sheet
name.  Line 46 derives `duration_sec`; lines 47-48 parse the timestamps
(`dt` is the abstract `pd.to_datetime(..., errors="coerce")` on one cell,
returning `none` for unparseable input). -/
def mkRec (dt : PyStr → Option Nat) (s : Sheet) (row : RawRow) : Rec :=
  { direction := row.direction
    start := (effStart s row).bind dt
    endT := (effEnd s row).bind dt
    duration_str := effDuration s row
    assigned_to := row.assignedCell
    date :=
      if s.hasStart then ((effStart s row).bind dt).map (fun t => Sum.inl (t / 1440))
      else some (Sum.inr s.name)
    duration_sec := to_seconds (astype_str (effDuration s row)) }

/-- One sheet's contribution to the merged dataframe (lines 25-43), with the
columnwise post-processing of lines 46-48 applied per row (the two are
row-for-row equivalent). -/
def processSheet (dt : PyStr → Option Nat) (s : Sheet) : List Rec :=
  (s.rows.filter (fun row => !rowAllNa s row)).map (mkRec dt s)

/-- `load_excel` (lines 20-50): all sheets processed in order and
concatenated (`pd.concat`, line 45).  The function is partial: with no
sheets, `pd.concat([])` at line 45 raises, and when no sheet contributes a
`duration_str` / `start` / `end` column, the column lookups of lines 46-48
(`final_df["duration_str"]` etc.) raise `KeyError`; `none` models those
raised exceptions (the only caller-visible failure), and records are
produced only on the `some` path. -/
def load_excel (dt : PyStr → Option Nat) (sheets : List Sheet) : Option (List Rec) :=
  if !sheets.isEmpty && sheets.any Sheet.hasDuration && sheets.any Sheet.hasStart &&
      sheets.any Sheet.hasEnd then
    some ((sheets.map (processSheet dt)).flatten)
  else none

/-- A record-level version of the business-hours test of line 106: does the
record's floored start carry one of the 19 valid slot labels? -/
def slot_ok (r : Rec) : Bool :=
  match hour_slot r.start with
  | some s => decide (s ∈ valid_hours)
  | none => false

/-- Concrete records used at concrete inputs in the theorems below. -/
def exRecC1a : Rec := ⟨none, none, none, none, none, none, some 60⟩

def exRecC1b : Rec := ⟨none, none, none, none, none, none, none⟩

def exRecC2a : Rec := ⟨none, some 1110, none, none, none, none, none⟩

def exRecC2b : Rec := ⟨none, some 570, none, none, none, none, none⟩

def exRecC10a : Rec := ⟨none, none, none, none, none, none, none⟩

def exRecC10b : Rec := ⟨none, none, none, none, none, some (Sum.inl 0), none⟩

/-- A sheet with all canonical columns whose single data row holds only the
duration string "-1:0:0" (the other cells empty).  `load_excel` completes on
the one-sheet workbook `[exSheetC6]`: every column of lines 46-48 exists. -/
def exSheetC6 : Sheet :=
  ⟨pys "Sheet1", true, true, true, [⟨none, none, none, some (pys "-1:0:0"), none⟩]⟩

/-- The record normalization produces for `exSheetC6`'s row: start fails to
parse so `date` is `NaT`, and the duration parses to -3600. -/
def exRecC6 : Rec := ⟨none, none, none, some (pys "-1:0:0"), none, none, some (-3600)⟩

/-- Like `exSheetC6` but with the well-formed duration "1:2:3". -/
def exSheetC6w : Sheet :=
  ⟨pys "Sheet1", true, true, true, [⟨none, none, none, some (pys "1:2:3"), none⟩]⟩

/-- The record normalization produces for `exSheetC6w`'s row. -/
def exRecC6w : Rec := ⟨none, none, none, some (pys "1:2:3"), none, none, some 3723⟩

/-- A sheet with all canonical columns and no data rows: it contributes the
`start` / `end` / `duration_str` columns to the merged frame, so lines 46-48
succeed, while adding no records. -/
def exSheetCols : Sheet := ⟨pys "Sheet1", true, true, true, []⟩

/-- A sheet with no start (nor end/duration) column; its single row carries
only a direction value, so it survives `dropna(how="all")`. -/
def exSheetC4 : Sheet :=
  ⟨pys "Sheet2", false, false, false, [⟨some (pys "Incoming"), none, none, none, none⟩]⟩

/-- The record normalization produces for `exSheetC4`'s row: dated with the
sheet name "Sheet2". -/
def exRecC4 : Rec :=
  ⟨some (pys "Incoming"), none, none, none, none, some (Sum.inr (pys "Sheet2")), none⟩

theorem pySplit_sepFree (sep : Char) :
    ∀ l : PyStr, sep ∉ l → pySplit sep l = [l] := by
  intro l
  induction l with
  | nil => intro _; rfl
  | cons c cs ih =>
    intro h
    have hc : ¬c = sep := fun he => h (he ▸ List.mem_cons_self c cs)
    have hcs : sep ∉ cs := fun hm => h (List.mem_cons_of_mem c hm)
    simp only [pySplit, if_neg hc, ih hcs]

theorem pySplit_append (sep : Char) :
    ∀ a rest : PyStr, sep ∉ a →
      pySplit sep (a ++ sep :: rest) = a :: pySplit sep rest := by
  intro a
  induction a with
  | nil => intro rest _; simp [pySplit]
  | cons c cs ih =>
    intro rest h
    have hc : ¬c = sep := fun he => h (he ▸ List.mem_cons_self c cs)
    have hcs : sep ∉ cs := fun hm => h (List.mem_cons_of_mem c hm)
    simp only [List.cons_append, pySplit, if_neg hc, List.append_eq, ih rest hcs]

theorem isDigitChar_iff {c : Char} : isDigitChar c = true ↔ 48 ≤ c.toNat ∧ c.toNat ≤ 57 := by
  simp [isDigitChar]

theorem digit_props {c : Char} (h : isDigitChar c = true) :
    c ≠ '_' ∧ pyWS c = false ∧ c ≠ ':' ∧ c ≠ '-' ∧ c ≠ '+' := by
  rw [isDigitChar_iff] at h
  refine ⟨fun he => ?_, ?_, fun he => ?_, fun he => ?_, fun he => ?_⟩
  · rw [he] at h; exact absurd h (by decide)
  · simp only [pyWS, Bool.or_eq_false_iff, decide_eq_false_iff_not]; omega
  · rw [he] at h; exact absurd h (by decide)
  · rw [he] at h; exact absurd h (by decide)
  · rw [he] at h; exact absurd h (by decide)

theorem isDigitChar_digitChar {n : Nat} (h : n < 10) : isDigitChar (digitChar n) = true := by
  interval_cases n <;> decide

theorem toNat_digitChar {n : Nat} (h : n < 10) : (digitChar n).toNat = 48 + n := by
  interval_cases n <;> decide

theorem renderNatAux_congr (n : Nat) : ∀ f1 f2 : Nat, ∀ acc : PyStr, n < f1 → n < f2 →
    renderNatAux f1 n acc = renderNatAux f2 n acc := by
  induction n using Nat.strong_induction_on with
  | _ n ih =>
    intro f1 f2 acc h1 h2
    match f1, f2 with
    | g1 + 1, g2 + 1 =>
      by_cases h : n < 10
      · simp [renderNatAux, h]
      · have hd : n / 10 < n := Nat.div_lt_self (by omega) (by omega)
        simp only [renderNatAux, if_neg h]
        exact ih (n / 10) hd g1 g2 _ (by omega) (by omega)

theorem renderNatAux_acc : ∀ fuel n : Nat, ∀ acc : PyStr, n < fuel →
    renderNatAux fuel n acc = renderNatAux fuel n [] ++ acc := by
  intro fuel
  induction fuel with
  | zero => intro n acc h; exact absurd h (by omega)
  | succ g ih =>
    intro n acc h
    by_cases h10 : n < 10
    · simp [renderNatAux, h10]
    · have hd : n / 10 < g := by omega
      simp only [renderNatAux, if_neg h10]
      rw [ih (n / 10) _ hd, ih (n / 10) [digitChar (n % 10)] hd]
      simp [List.append_assoc]

theorem renderNat_lt {n : Nat} (h : n < 10) : renderNat n = [digitChar n] := by
  rw [renderNat]
  simp [renderNatAux, h]

theorem renderNat_ge {n : Nat} (h : ¬n < 10) :
    renderNat n = renderNat (n / 10) ++ [digitChar (n % 10)] := by
  rw [renderNat, renderNat]
  simp only [renderNatAux, if_neg h]
  rw [renderNatAux_congr (n / 10) n (n / 10 + 1) _ (by omega) (by omega)]
  exact renderNatAux_acc (n / 10 + 1) (n / 10) [digitChar (n % 10)] (by omega)

theorem renderNat_ne_nil (n : Nat) : renderNat n ≠ [] := by
  by_cases h : n < 10
  · rw [renderNat_lt h]; exact List.cons_ne_nil _ _
  · rw [renderNat_ge h]; simp

theorem renderNat_digits (n : Nat) : ∀ c ∈ renderNat n, isDigitChar c = true := by
  induction n using Nat.strong_induction_on with
  | _ n ih =>
    intro c hc
    by_cases h : n < 10
    · rw [renderNat_lt h] at hc
      rcases List.mem_singleton.mp hc with rfl
      exact isDigitChar_digitChar h
    · rw [renderNat_ge h] at hc
      rcases List.mem_append.mp hc with hc' | hc'
      · exact ih (n / 10) (Nat.div_lt_self (by omega) (by omega)) c hc'
      · rcases List.mem_singleton.mp hc' with rfl
        exact isDigitChar_digitChar (Nat.mod_lt _ (by omega))

theorem digitsVal_renderNat (n : Nat) : digitsVal (renderNat n) = n := by
  induction n using Nat.strong_induction_on with
  | _ n ih =>
    by_cases h : n < 10
    · rw [renderNat_lt h]
      simp [digitsVal, toNat_digitChar h]
    · rw [renderNat_ge h, digitsVal, List.foldl_append]
      have hv := ih (n / 10) (Nat.div_lt_self (by omega) (by omega))
      rw [digitsVal] at hv
      rw [hv]
      simp only [List.foldl_cons, List.foldl_nil, toNat_digitChar (Nat.mod_lt n (by omega))]
      omega

theorem digitRun_of_digits : ∀ l : PyStr, (∀ c ∈ l, isDigitChar c = true) → digitRun l = true
  | [], _ => rfl
  | [c], h => by simpa [digitRun] using h c (by simp)
  | c :: c2 :: rest, h => by
    have hc := h c (by simp)
    have hrest : ∀ x ∈ c2 :: rest, isDigitChar x = true := fun x hx => h x (by simp [hx])
    simp only [digitRun, if_neg (digit_props hc).1, hc,
      digitRun_of_digits (c2 :: rest) hrest, Bool.and_self]

theorem filter_ne_underscore (l : PyStr) (h : ∀ c ∈ l, isDigitChar c = true) :
    l.filter (fun d => d ≠ '_') = l :=
  List.filter_eq_self.mpr (fun c hc => by simp [(digit_props (h c hc)).1])

theorem pyDigits_of_digits (l : PyStr) (hne : l ≠ []) (h : ∀ c ∈ l, isDigitChar c = true) :
    pyDigits l = some (digitsVal l) := by
  obtain ⟨c, rest, rfl⟩ := List.exists_cons_of_ne_nil hne
  have hc := h c (by simp)
  have hrest : ∀ x ∈ rest, isDigitChar x = true := fun x hx => h x (by simp [hx])
  simp only [pyDigits, hc, digitRun_of_digits rest hrest, Bool.and_self, if_pos,
    filter_ne_underscore _ h]

theorem dropWhile_eq_self_of_false (p : Char → Bool) (l : PyStr)
    (h : ∀ c ∈ l, p c = false) : l.dropWhile p = l := by
  cases l with
  | nil => rfl
  | cons c cs => rw [List.dropWhile_cons, if_neg (by simp [h c (by simp)])]

theorem pyStrip_eq_self (l : PyStr) (h : ∀ c ∈ l, pyWS c = false) : pyStrip l = l := by
  rw [pyStrip, dropWhile_eq_self_of_false _ _ h,
    dropWhile_eq_self_of_false _ _ (fun c hc => h c (List.mem_reverse.mp hc)),
    List.reverse_reverse]

theorem pyInt_of_digits (l : PyStr) (hne : l ≠ []) (h : ∀ c ∈ l, isDigitChar c = true) :
    pyInt l = some (digitsVal l : Int) := by
  have hs : pyStrip l = l := pyStrip_eq_self _ (fun c hc => (digit_props (h c hc)).2.1)
  obtain ⟨c, rest, rfl⟩ := List.exists_cons_of_ne_nil hne
  have hc := h c (by simp)
  rw [pyInt, hs]
  simp only [if_neg (digit_props hc).2.2.2.1, if_neg (digit_props hc).2.2.2.2,
    pyDigits_of_digits _ hne h]
  rfl

theorem pyInt_renderNat (n : Nat) : pyInt (renderNat n) = some (n : Int) := by
  rw [pyInt_of_digits _ (renderNat_ne_nil n) (renderNat_digits n), digitsVal_renderNat]

theorem pyInt_renderInt (i : Int) : pyInt (renderInt i) = some i := by
  cases i with
  | ofNat n => simpa only [renderInt] using pyInt_renderNat n
  | negSucc m =>
    have hd := renderNat_digits (m + 1)
    have hs : pyStrip ('-' :: renderNat (m + 1)) = '-' :: renderNat (m + 1) := by
      refine pyStrip_eq_self _ (fun c hc => ?_)
      rcases List.mem_cons.mp hc with rfl | hc'
      · decide
      · exact (digit_props (hd c hc')).2.1
    rw [renderInt, pyInt, hs]
    simp only [if_pos rfl, pyDigits_of_digits _ (renderNat_ne_nil _) hd,
      digitsVal_renderNat, Option.map_some]
    congr 1

theorem colon_not_mem_renderNat (n : Nat) : ':' ∉ renderNat n := fun hm =>
  absurd (renderNat_digits n _ hm) (by decide)

theorem colon_not_mem_renderInt (i : Int) : ':' ∉ renderInt i := by
  cases i with
  | ofNat n => simpa only [renderInt] using colon_not_mem_renderNat n
  | negSucc m =>
    intro hm
    rcases List.mem_cons.mp hm with he | hc'
    · exact absurd he (by decide)
    · exact colon_not_mem_renderNat _ hc'

theorem to_seconds_renderInt (h m s : Int) :
    to_seconds (renderInt h ++ ':' :: (renderInt m ++ ':' :: renderInt s)) =
      some (h * 3600 + m * 60 + s) := by
  rw [to_seconds, pySplit_append ':' _ _ (colon_not_mem_renderInt h),
    pySplit_append ':' _ _ (colon_not_mem_renderInt m),
    pySplit_sepFree ':' _ (colon_not_mem_renderInt s)]
  simp only [pyInt_renderInt]

theorem to_seconds_some_inv (x : PyStr) (v : Int) (hv : to_seconds x = some v) :
    ∃ a b c : PyStr, ∃ h m s : Int,
      pySplit ':' x = [a, b, c] ∧ pyInt a = some h ∧ pyInt b = some m ∧
        pyInt c = some s ∧ v = h * 3600 + m * 60 + s := by
  unfold to_seconds at hv
  split at hv
  next a b c heq =>
    split at hv
    next h m s hh hm hs =>
      cases hv
      exact ⟨a, b, c, h, m, s, heq, hh, hm, hs, rfl⟩
    next => exact absurd hv (by simp)
  next => exact absurd hv (by simp)

/-- C3: the duration parser is total on strings: every well-formed "H:M:S"
string with integer components parses to `H*3600 + M*60 + S`; a `some`
result only ever arises from a string that splits into exactly three
':'-separated `int`-parseable fields, so every malformed string yields
`none` (the blanket `except` in `to_seconds` means no exception reaches the
caller); the spec's malformed examples "abc", "1:2" and "" all yield
`none`. -/
theorem C3_to_seconds_total :
    (∀ h m s : Int,
        to_seconds (renderInt h ++ ':' :: (renderInt m ++ ':' :: renderInt s)) =
          some (h * 3600 + m * 60 + s)) ∧
    (∀ x : PyStr, ∀ v : Int, to_seconds x = some v →
        ∃ a b c : PyStr, ∃ h m s : Int,
          pySplit ':' x = [a, b, c] ∧ pyInt a = some h ∧ pyInt b = some m ∧
            pyInt c = some s ∧ v = h * 3600 + m * 60 + s) ∧
    to_seconds (pys "abc") = none ∧ to_seconds (pys "1:2") = none ∧
      to_seconds (pys "") = none :=
  ⟨to_seconds_renderInt, to_seconds_some_inv, by decide, by decide, by decide⟩

/-- Witness for C3 at the concrete input "1:2:3" (value 3723 seconds). -/
theorem C3_witness :
    ∃ a b c : PyStr, ∃ h m s : Int,
      pySplit ':' (pys "1:2:3") = [a, b, c] ∧ pyInt a = some h ∧
        pyInt b = some m ∧ pyInt c = some s ∧ (3723 : Int) = h * 3600 + m * 60 + s :=
  C3_to_seconds_total.2.1 (pys "1:2:3") 3723 (by decide)

/-- C9: on the empty record set the KPI block yields count 0, total 0 and
average 0; the `if total_calls > 0` guard makes the zero-count average 0
instead of a division error. -/
theorem C9_kpis_empty :
    total_calls [] = 0 ∧ total_duration [] = 0 ∧ avg_duration [] = some 0 := by
  refine ⟨rfl, ?_, by decide⟩
  norm_num [total_duration, series_sum, durList]

/-- C8: applying the same filter twice yields the same rows as applying it
once. -/
theorem C8_filter_idempotent (l : List Rec) (aAllow dAllow : List (Option PyStr)) :
    filtered_df (filtered_df l aAllow dAllow) aAllow dAllow = filtered_df l aAllow dAllow := by
  rw [filtered_df, filtered_df, List.filter_filter]
  exact List.filter_congr (fun r _ => Bool.and_self _)

theorem mem_pdUnique {α : Type} [DecidableEq α] (a : α) :
    ∀ l : List α, a ∈ pdUnique l ↔ a ∈ l
  | [] => Iff.rfl
  | b :: l => by
    simp only [pdUnique, List.mem_cons, List.mem_filter]
    constructor
    · rintro (rfl | ⟨h, _⟩)
      · exact Or.inl rfl
      · exact Or.inr ((mem_pdUnique a l).mp h)
    · rintro (rfl | h)
      · exact Or.inl rfl
      · by_cases hab : a = b
        · exact Or.inl hab
        · exact Or.inr ⟨(mem_pdUnique a l).mpr h, by simp [hab]⟩

/-- C7: the filter keeps exactly the rows whose `assigned_to` and `direction`
lie in the allowed lists, preserving input order (the result is a sublist);
the default allowed lists built by `dropna().unique()` contain no null; and
under those defaults exactly the rows with non-null `assigned_to` and
non-null `direction` survive. -/
theorem C7_filter_semantics (l : List Rec) (aAllow dAllow : List (Option PyStr)) :
    (filtered_df l aAllow dAllow).Sublist l ∧
    (∀ r : Rec, r ∈ filtered_df l aAllow dAllow ↔
        r ∈ l ∧ r.assigned_to ∈ aAllow ∧ r.direction ∈ dAllow) ∧
    (none ∉ (assigned_options l).map some ∧ none ∉ (direction_options l).map some) ∧
    filtered_df l ((assigned_options l).map some) ((direction_options l).map some) =
      l.filter (fun r => r.assigned_to.isSome && r.direction.isSome) := by
  refine ⟨List.filter_sublist l, ?_, ⟨by simp, by simp⟩, ?_⟩
  · intro r
    rw [filtered_df, List.mem_filter]
    simp
  · rw [filtered_df]
    refine List.filter_congr (fun r hr => ?_)
    have hmem : ∀ f : Rec → Option PyStr,
        (f r ∈ (pdUnique (l.filterMap f)).map some) ↔ (f r).isSome = true := by
      intro f
      constructor
      · intro hin
        rcases List.mem_map.mp hin with ⟨v, _, hv⟩
        rw [← hv]; rfl
      · intro hsome
        rcases Option.isSome_iff_exists.mp hsome with ⟨v, hv⟩
        rw [hv]
        refine List.mem_map.mpr ⟨v, ?_, rfl⟩
        exact (mem_pdUnique v _).mpr (List.mem_filterMap.mpr ⟨r, hr, hv⟩)
    rw [assigned_options, direction_options]
    congr 1
    · rw [Bool.eq_iff_iff, decide_eq_true_eq]; exact hmem Rec.assigned_to
    · rw [Bool.eq_iff_iff, decide_eq_true_eq]; exact hmem Rec.direction

/-- C4: the per-sheet date fallback of lines 38-41: when a sheet has no start
column, every surviving row of that sheet is dated with the sheet name; when
the column is present, a row whose start fails to parse gets a `NaT` date
(`none`), never the sheet name.  Whenever `load_excel` completes (returns
`some`), the row's record is part of the output. -/
theorem C4_date_fallback (dt : PyStr → Option Nat) (sheets : List Sheet) (s : Sheet)
    (hs : s ∈ sheets) (r : Rec) (hr : r ∈ processSheet dt s) :
    (∀ out : List Rec, load_excel dt sheets = some out → r ∈ out) ∧
      (s.hasStart = false → r.date = some (Sum.inr s.name)) ∧
      (s.hasStart = true → r.start = none → r.date = none) := by
  refine ⟨?_, ?_, ?_⟩
  · intro out hout
    rw [load_excel] at hout
    split at hout
    · cases hout
      exact List.mem_flatten.mpr ⟨processSheet dt s, List.mem_map.mpr ⟨s, hs, rfl⟩, hr⟩
    · exact absurd hout (by simp)
  · intro h
    obtain ⟨row, _, rfl⟩ := List.mem_map.mp hr
    simp [mkRec, h]
  · intro h hst
    obtain ⟨row, _, rfl⟩ := List.mem_map.mp hr
    simp only [mkRec] at hst ⊢
    simp [h, hst]

/-- Witness for C4 on the workbook `[exSheetCols, exSheetC4]`: the first
sheet supplies the start/end/duration columns so `load_excel` completes, and
the second sheet has no start column, so its record is dated "Sheet2". -/
theorem C4_witness :
    (∀ out : List Rec,
        load_excel (fun _ => none) [exSheetCols, exSheetC4] = some out → exRecC4 ∈ out) ∧
      (exSheetC4.hasStart = false → exRecC4.date = some (Sum.inr exSheetC4.name)) ∧
      (exSheetC4.hasStart = true → exRecC4.start = none → exRecC4.date = none) :=
  C4_date_fallback (fun _ => none) [exSheetCols, exSheetC4] exSheetC4 (by decide) exRecC4
    (by decide)

/-- C6 counterexample: on a one-sheet workbook whose sheet has all canonical
columns and a single data row with duration cell "-1:0:0", `load_excel`
completes (no column lookup of lines 46-48 fails) and yields one record with
`duration_sec = some (-3600) < 0`: a non-null `duration_sec` need not be
non-negative, because Python `int` accepts signed components. -/
theorem C6_counterexample :
    load_excel (fun _ => none) [exSheetC6] = some [exRecC6] ∧
      exRecC6.duration_sec = some (-3600) ∧ (-3600 : Int) < 0 := by decide

/-- C6 amended: whenever `load_excel` completes, a non-null `duration_sec`
of a produced record always equals H*3600 + M*60 + S for the three integers
parsed from the row's duration string, and it is non-negative whenever those
three integers are non-negative (in particular for plain digit components);
a negative value requires an explicitly signed component such as
"-1:0:0". -/
theorem C6_duration_shape (dt : PyStr → Option Nat) (sheets : List Sheet) (out : List Rec)
    (hout : load_excel dt sheets = some out) (r : Rec) (hr : r ∈ out)
    (v : Int) (hv : r.duration_sec = some v) :
    ∃ a b c : PyStr, ∃ h m s : Int,
      pySplit ':' (astype_str r.duration_str) = [a, b, c] ∧
        pyInt a = some h ∧ pyInt b = some m ∧ pyInt c = some s ∧
        v = h * 3600 + m * 60 + s ∧ (0 ≤ h → 0 ≤ m → 0 ≤ s → 0 ≤ v) := by
  rw [load_excel] at hout
  split at hout
  case isTrue =>
    cases hout
    obtain ⟨chunk, hchunk, hrc⟩ := List.mem_flatten.mp hr
    obtain ⟨sh, _, rfl⟩ := List.mem_map.mp hchunk
    obtain ⟨row, _, rfl⟩ := List.mem_map.mp hrc
    have hsec : (mkRec dt sh row).duration_sec =
        to_seconds (astype_str (effDuration sh row)) := rfl
    rw [hsec] at hv
    obtain ⟨a, b, c, h, m, sec, hsp, ha, hb, hc, hval⟩ := to_seconds_some_inv _ _ hv
    exact ⟨a, b, c, h, m, sec, hsp, ha, hb, hc, hval, fun h1 h2 h3 => by omega⟩
  case isFalse => exact absurd hout (by simp)

/-- Witness for C6 at the completing workbook `[exSheetC6w]` ("1:2:3", 3723
seconds, non-negative). -/
theorem C6_witness :
    ∃ a b c : PyStr, ∃ h m s : Int,
      pySplit ':' (astype_str exRecC6w.duration_str) = [a, b, c] ∧
        pyInt a = some h ∧ pyInt b = some m ∧ pyInt c = some s ∧
        (3723 : Int) = h * 3600 + m * 60 + s ∧ (0 ≤ h → 0 ≤ m → 0 ≤ s → (0 : Int) ≤ 3723) :=
  C6_duration_shape (fun _ => none) [exSheetC6w] [exRecC6w] (by decide) exRecC6w (by decide)
    3723 (by decide)

/-- C1 counterexample: on records with durations [60 s, null] the claim
predicts avgMinutes = (60 / 2) / 60 = 1/2 (non-null sum over the TOTAL
count), but line 81's pandas `.mean()` skips the null in the denominator
too, giving 1 minute. -/
theorem C1_counterexample :
    avg_duration [exRecC1a, exRecC1b] = some 1 ∧
      avg_duration [exRecC1a, exRecC1b] ≠
        some (series_sum [exRecC1a, exRecC1b] / (total_calls [exRecC1a, exRecC1b] : ℚ) / 60) := by
  have hdl : durList [exRecC1a, exRecC1b] = [(60 : Int)] := rfl
  have h1 : avg_duration [exRecC1a, exRecC1b] = some 1 := by
    rw [avg_duration, if_pos (by decide : 0 < total_calls [exRecC1a, exRecC1b]),
      series_mean, hdl, if_neg (by simp), series_sum, hdl]
    norm_num
  have h2 : series_sum [exRecC1a, exRecC1b] / (total_calls [exRecC1a, exRecC1b] : ℚ) / 60
      = 1 / 2 := by
    rw [series_sum, hdl, total_calls]
    norm_num
  refine ⟨h1, ?_⟩
  rw [h1, h2]
  intro hc
  rw [Option.some_inj] at hc
  norm_num at hc

/-- C1 amended: for a nonempty record set, `avg_duration` is the sum of the
non-null durations divided by the count of NON-NULL durations (converted to
minutes), and it is `NaN` (`none`) when every duration is null; the total
record count never enters the denominator. -/
theorem C1_avg_nonnull_denominator (l : List Rec) (h : 0 < total_calls l) :
    avg_duration l =
      if durList l = [] then none
      else some (((durList l).sum : ℚ) / ((durList l).length : ℚ) / 60) := by
  rw [avg_duration, if_pos h, series_mean]
  by_cases hd : durList l = []
  · rw [if_pos hd, if_pos hd]; rfl
  · rw [if_neg hd, if_neg hd, Option.map_some', series_sum]

/-- Witness for C1's amended claim at the records of the counterexample. -/
theorem C1_witness :
    avg_duration [exRecC1a, exRecC1b] =
      if durList [exRecC1a, exRecC1b] = [] then none
      else some (((durList [exRecC1a, exRecC1b]).sum : ℚ) /
        ((durList [exRecC1a, exRecC1b]).length : ℚ) / 60) :=
  C1_avg_nonnull_denominator [exRecC1a, exRecC1b] (by decide)

theorem groupbySize_keys {α : Type} [LinearOrder α] [DecidableEq α] (keys : List α) :
    (groupbySize keys).map Prod.fst = keys.dedup.insertionSort (fun a b => a ≤ b) := by
  rw [groupbySize, List.map_map]
  have hid : (Prod.fst ∘ fun k : α => (k, keys.countP (fun x => decide (x = k)))) = id := rfl
  rw [hid, List.map_id]

theorem groupbySize_keys_sorted {α : Type} [LinearOrder α] [DecidableEq α] (keys : List α) :
    ((groupbySize keys).map Prod.fst).Pairwise (fun a b => a < b) := by
  rw [groupbySize_keys]
  have hs : List.Sorted (fun a b : α => a ≤ b) (keys.dedup.insertionSort (fun a b => a ≤ b)) :=
    List.sorted_insertionSort _ _
  have hn : (keys.dedup.insertionSort (fun a b : α => a ≤ b)).Nodup :=
    (List.perm_insertionSort _ _).nodup_iff.mpr keys.nodup_dedup
  exact (List.Pairwise.and hs hn).imp (fun hab => lt_of_le_of_ne hab.1 hab.2)

theorem mem_groupbySize {α : Type} [LinearOrder α] [DecidableEq α] {keys : List α}
    {p : α × Nat} :
    p ∈ groupbySize keys ↔
      p.1 ∈ keys ∧ p.2 = keys.countP (fun x => decide (x = p.1)) := by
  rw [groupbySize]
  constructor
  · intro hp
    rcases List.mem_map.mp hp with ⟨k, hk, rfl⟩
    have hk' : k ∈ keys.dedup := (List.perm_insertionSort _ _).mem_iff.mp hk
    exact ⟨List.mem_dedup.mp hk', rfl⟩
  · rintro ⟨h1, h2⟩
    obtain ⟨k, c⟩ := p
    refine List.mem_map.mpr ⟨k, ?_, ?_⟩
    · exact (List.perm_insertionSort _ _).mem_iff.mpr (List.mem_dedup.mpr h1)
    · simp only at h2
      rw [h2]

theorem groupbySize_sum {α : Type} [LinearOrder α] [DecidableEq α] (keys : List α) :
    ((groupbySize keys).map Prod.snd).sum = keys.length := by
  rw [groupbySize, List.map_map]
  have hc : (Prod.snd ∘ fun k => (k, keys.countP (fun x => decide (x = k)))) =
      fun k : α => keys.count k := rfl
  rw [hc, List.Perm.sum_eq ((List.perm_insertionSort _ _).map _)]
  exact keys.sum_map_count_dedup_eq_length

theorem length_filterMap_eq_countP {α β : Type} (f : α → Option β) (l : List α) :
    (l.filterMap f).length = l.countP (fun a => (f a).isSome) := by
  induction l with
  | nil => rfl
  | cons a t ih =>
    rw [List.filterMap_cons, List.countP_cons]
    cases hf : f a with
    | none => simp [hf, ih]
    | some b => simp [hf, ih, Nat.add_comm]

theorem slot_column_length (l : List Rec) : (slot_column l).length = l.countP slot_ok := by
  rw [slot_column]
  induction l with
  | nil => rfl
  | cons r t ih =>
    rw [List.filterMap_cons, List.countP_cons]
    cases hs : hour_slot r.start with
    | none =>
      have hok : slot_ok r = false := by rw [slot_ok, hs]
      rw [hok]
      simpa using ih
    | some lab =>
      have hok : slot_ok r = decide (lab ∈ valid_hours) := by rw [slot_ok, hs]
      rw [hok, List.filter_cons]
      by_cases hv : lab ∈ valid_hours
      · have hd : decide (lab ∈ valid_hours) = true := decide_eq_true hv
        rw [hd, if_pos rfl, if_pos rfl, List.length_cons, ih]
      · have hd : decide (lab ∈ valid_hours) = false := decide_eq_false hv
        rw [hd]
        simpa using ih

/-- C2 counterexample: on two records whose starts floor to 06:30 PM and
09:30 AM, `calls_by_hour` has 2 rows, not 19 (empty slots are absent: the
groupby only tabulates observed labels), and its row order is the
lexicographic string order ("06:30 PM" before "09:30 AM"), not the fixed
chronological slot order. -/
theorem C2_counterexample :
    (calls_by_hour [exRecC2a, exRecC2b]).length = 2 ∧ (2 : Nat) ≠ 19 ∧
      (calls_by_hour [exRecC2a, exRecC2b]).map Prod.fst ≠ valid_hours ∧
      (calls_by_hour [exRecC2a, exRecC2b]).map Prod.fst =
        [pys "06:30 PM", pys "09:30 AM"] := by
  refine ⟨by decide, by decide, by decide, by decide⟩

/-- C2 amended: `calls_by_hour` returns one row per DISTINCT OBSERVED valid
slot (zero-count slots are omitted), in strictly ascending lexicographic
label order rather than the fixed chronological order; every row's label is
one of the 19 valid slots, its count is positive and equals the label's
multiplicity in the slot column, a label appears iff some record's floored
start produces it, and the counts sum to the number of records whose start
floors to a valid slot. -/
theorem C2_calls_by_hour (l : List Rec) :
    ((calls_by_hour l).map Prod.fst).Pairwise (fun a b : PyStr => a < b) ∧
    (∀ p : PyStr × Nat, p ∈ calls_by_hour l →
        p.1 ∈ valid_hours ∧ 0 < p.2 ∧
          p.2 = (slot_column l).countP (fun x => decide (x = p.1))) ∧
    (∀ k : PyStr, k ∈ (calls_by_hour l).map Prod.fst ↔ k ∈ slot_column l) ∧
    ((calls_by_hour l).map Prod.snd).sum = l.countP slot_ok := by
  refine ⟨groupbySize_keys_sorted _, ?_, ?_, ?_⟩
  · intro p hp
    obtain ⟨h1, h2⟩ := mem_groupbySize.mp hp
    refine ⟨(List.mem_filter.mp h1).2 |> of_decide_eq_true, ?_, h2⟩
    rw [h2]
    exact List.countP_pos_iff.mpr ⟨p.1, h1, by simp⟩
  · intro k
    rw [calls_by_hour, groupbySize_keys, (List.perm_insertionSort _ _).mem_iff]
    exact List.mem_dedup
  · rw [calls_by_hour, groupbySize_sum, slot_column_length]

/-- C10: `calls_per_day` silently drops the records whose `date` is `NaT`
(rows whose start failed to parse in a sheet that has a start column): for
every record set the per-day counts sum to the number of records with a
non-null `date`; on the concrete pair `[exRecC10a (null date), exRecC10b]`
that sum is 1 while the total record count is 2, strictly less. -/
theorem C10_calls_per_day (l : List Rec) :
    ((calls_per_day l).map Prod.snd).sum = l.countP (fun r => r.date.isSome) ∧
      ((calls_per_day [exRecC10a, exRecC10b]).map Prod.snd).sum = 1 ∧
      total_calls [exRecC10a, exRecC10b] = 2 := by
  have main : ∀ m : List Rec,
      ((calls_per_day m).map Prod.snd).sum = m.countP (fun r => r.date.isSome) := by
    intro m
    rw [calls_per_day, groupbySize_sum, List.length_map, length_filterMap_eq_countP]
  exact ⟨main l, (main [exRecC10a, exRecC10b]).trans (by decide), rfl⟩

/-- Witness for C2's amended claim: on the concrete two-record input, the
"06:30 PM" row of `calls_by_hour` carries a valid label, a positive count,
and the multiplicity of that label in the slot column. -/
theorem C2_witness :
    ((pys "06:30 PM", 1) : PyStr × Nat).1 ∈ valid_hours ∧
      0 < ((pys "06:30 PM", 1) : PyStr × Nat).2 ∧
      ((pys "06:30 PM", 1) : PyStr × Nat).2 =
        (slot_column [exRecC2a, exRecC2b]).countP
          (fun x => decide (x = ((pys "06:30 PM", 1) : PyStr × Nat).1)) :=
  (C2_calls_by_hour [exRecC2a, exRecC2b]).2.1 (pys "06:30 PM", 1) (by decide)
